import Mathlib

/-!
Shallow embedding of the dydactic validation library (src/dydactic) and
proofs about its coercion engine, union resolver, structural caster and
streaming pipeline.

The embedding follows the Python source:
  - cast.py: cast_as, cast_as_union, cast_as_annotation, cast_to_annotated_class
  - transform.py: Transform, apply_transforms
  - validate.py: validate_record, validate_records (individual and bulk paths),
    validate_json
Python runtime values are modelled by the inductive PyVal; Python floats are
modelled as rationals (the claims under study never depend on binary floating
point rounding); a raised exception is modelled as Option.none / Except.error.
-/

namespace Dydactic

/-- Model of a Python runtime value.  Floats are modelled as rationals;
dictionary keys are modelled as strings (the records the library validates
are JSON-like mappings keyed by field name). -/
inductive PyVal where
  | vInt (n : Int)
  | vFloat (q : Rat)
  | vBool (b : Bool)
  | vStr (s : String)
  | vNone
  | vList (xs : List PyVal)
  | vTuple (xs : List PyVal)
  | vSet (xs : List PyVal)
  | vDict (kvs : List (String × PyVal))
deriving Repr

/-- The scalar annotation kinds that the union guard in cast.py names
explicitly: `_type in (int, float, str, bool)` (cast.py line 123). -/
inductive SKind where
  | int
  | float
  | str
  | bool
deriving DecidableEq, Repr

/-- Python `isinstance(value, kind)` for the scalar kinds.  Note that in
Python `bool` is a subclass of `int`, so `isinstance(True, int)` is true;
`int` values are not instances of `float`. -/
def isinstanceS (v : PyVal) (k : SKind) : Bool :=
  match k, v with
  | .int, .vInt _ => true
  | .int, .vBool _ => true
  | .float, .vFloat _ => true
  | .str, .vStr _ => true
  | .bool, .vBool _ => true
  | _, _ => false

/-- Python truthiness, `bool(value)`: zero numbers, empty strings and empty
containers are falsy, everything else is truthy. -/
def truthy : PyVal → Bool
  | .vInt n => !(decide (n = 0))
  | .vFloat q => !(decide (q = 0))
  | .vBool b => b
  | .vStr s => !s.isEmpty
  | .vNone => false
  | .vList xs => !xs.isEmpty
  | .vTuple xs => !xs.isEmpty
  | .vSet xs => !xs.isEmpty
  | .vDict kvs => !kvs.isEmpty

/-- Single-quote character used by Python repr of strings and dict keys. -/
def pyQuote : String := "\x27"

mutual

/-- Python `repr` of a value, used by `str()` on containers.  Container
renderings mirror CPython: lists `[a, b]`, tuples `(a,)` / `(a, b)`, sets
`set()` / `\x7ba, b\x7d`, dicts `\x7b'k': v\x7d`.  Floats are rendered from
the rational model (denominator-1 rationals as `n.0`, others as `num/den`),
a simplification that only affects the text of float renderings. -/
def pyRepr : PyVal → String
  | .vInt n => toString n
  | .vFloat q => if q.den = 1 then toString q.num ++ ".0" else toString q.num ++ "/" ++ toString q.den
  | .vBool b => if b then "True" else "False"
  | .vStr s => pyQuote ++ s ++ pyQuote
  | .vNone => "None"
  | .vList xs => "[" ++ String.intercalate ", " (reprList xs) ++ "]"
  | .vTuple xs =>
    if xs.length = 1 then "(" ++ String.intercalate ", " (reprList xs) ++ ",)"
    else "(" ++ String.intercalate ", " (reprList xs) ++ ")"
  | .vSet xs =>
    if xs.isEmpty then "set()"
    else "\x7b" ++ String.intercalate ", " (reprList xs) ++ "\x7d"
  | .vDict kvs => "\x7b" ++ String.intercalate ", " (reprKVs kvs) ++ "\x7d"

/-- Renders each element of a list with pyRepr. -/
def reprList : List PyVal → List String
  | [] => []
  | x :: xs => pyRepr x :: reprList xs

/-- Renders each key-value pair of a dict with pyRepr. -/
def reprKVs : List (String × PyVal) → List String
  | [] => []
  | (k, v) :: xs => (pyQuote ++ k ++ pyQuote ++ ": " ++ pyRepr v) :: reprKVs xs

end

/-- Python `str(value)`: identity on strings, `repr` rendering otherwise. -/
def pyStr : PyVal → String
  | .vStr s => s
  | v => pyRepr v

/-- Numeric value of a list of decimal digit characters. -/
def digitsToNat (cs : List Char) : Nat :=
  cs.foldl (fun a c => a * 10 + (c.toNat - 48)) 0

/-- Strips leading and trailing spaces, as Python int()/float() do on
string arguments. -/
def stripSpaces (s : String) : List Char :=
  ((s.toList.dropWhile (· = ' ')).reverse.dropWhile (· = ' ')).reverse

/-- Model of Python `int(s)` on a string: optional sign followed by a
non-empty run of decimal digits (underscore grouping and non-decimal bases
are not modelled); `none` models the raised ValueError. -/
def parsePyInt (s : String) : Option Int :=
  let parseDigits : List Char → Option Int := fun cs =>
    if cs ≠ [] ∧ cs.all (·.isDigit) then some (digitsToNat cs : Int) else none
  match stripSpaces s with
  | '-' :: rest => (parseDigits rest).map Neg.neg
  | '+' :: rest => parseDigits rest
  | cs => parseDigits cs

/-- Unsigned decimal float body: `digits`, `digits.digits`, `digits.` or
`.digits` (exponents and inf/nan are not modelled). -/
def parseUnsignedFloat (cs : List Char) : Option Rat :=
  let intPart := cs.takeWhile (·.isDigit)
  let rest := cs.dropWhile (·.isDigit)
  match rest with
  | [] => if intPart.isEmpty then none else some ((digitsToNat intPart : Int) : Rat)
  | '.' :: frac =>
    if frac.all (·.isDigit) && !(intPart.isEmpty && frac.isEmpty) then
      some (((digitsToNat intPart : Int) : Rat)
        + ((digitsToNat frac : Int) : Rat) / ((10 ^ frac.length : Nat) : Rat))
    else none
  | _ => none

/-- Model of Python `float(s)` on a string; `none` models the raised
ValueError. -/
def parsePyFloat (s : String) : Option Rat :=
  match stripSpaces s with
  | '-' :: rest => (parseUnsignedFloat rest).map Neg.neg
  | '+' :: rest => parseUnsignedFloat rest
  | cs => parseUnsignedFloat cs

/-- Python `int(float)` truncates toward zero. -/
def ratTruncToInt (q : Rat) : Int :=
  if q.num ≥ 0 then (q.num.toNat / q.den : Nat) else -((q.num.natAbs / q.den : Nat) : Int)

/-- Model of direct construction `annotation(value)` (cast.py line 28) for
the scalar kinds.  `str()` and `bool()` accept every value; `int()` and
`float()` accept numbers, booleans and suitable strings and raise
TypeError/ValueError (modelled as `none`) on anything else, in particular
on every container. -/
def constructS (k : SKind) (v : PyVal) : Option PyVal :=
  match k with
  | .str => some (.vStr (pyStr v))
  | .bool => some (.vBool (truthy v))
  | .int =>
    match v with
    | .vInt n => some (.vInt n)
    | .vBool b => some (.vInt (if b then 1 else 0))
    | .vFloat q => some (.vInt (ratTruncToInt q))
    | .vStr s => (parsePyInt s).map .vInt
    | _ => none
  | .float =>
    match v with
    | .vInt n => some (.vFloat (n : Rat))
    | .vBool b => some (.vFloat (if b then 1 else 0))
    | .vFloat q => some (.vFloat q)
    | .vStr s => (parsePyFloat s).map .vFloat
    | _ => none

/-- Embedding of `cast_as` (cast.py lines 9-28) at the scalar kinds: if the
value is already an instance of the annotation it is returned unchanged,
otherwise the annotation is constructed from the value.  The datetime branch
of the source is unreachable for these kinds.  `none` models a raised
ValueError/TypeError. -/
def cast_as (v : PyVal) (k : SKind) : Option PyVal :=
  if isinstanceS v k then some v
  else constructS k v

/-- True exactly when the value is one of the container shapes named by the
union guard in cast.py line 124: `isinstance(value, (list, dict, tuple, set))`. -/
def isContainer : PyVal → Bool
  | .vList _ => true
  | .vDict _ => true
  | .vTuple _ => true
  | .vSet _ => true
  | _ => false

/-- The single element of a length-1 list or tuple (cast.py line 127:
`isinstance(value, (list, tuple)) and len(value) == 1`), `none` for every
other value. -/
def seqLen1Elem : PyVal → Option PyVal
  | .vList [x] => some x
  | .vTuple [x] => some x
  | _ => none

/-- Embedding of the loop body of `cast_as_union` (cast.py lines 116-136)
over the list of union members still to try.  All member kinds in this
embedding are scalar kinds, so the source guard `_type in (int, float, str,
bool)` holds for every member.  An exhausted member list models the final
raised TypeError; a member whose attempt raises is recorded and the next
member is tried. -/
def cast_as_union (v : PyVal) : List SKind → Option PyVal
  | [] => none
  | k :: rest =>
    if isinstanceS v k then some v
    else if isContainer v then
      match seqLen1Elem v with
      | some x =>
        match cast_as x k with
        | some r => some r
        | none => cast_as_union v rest
      | none => cast_as_union v rest
    else
      match cast_as v k with
      | some r => some r
      | none => cast_as_union v rest

/-- Result of one member attempt in the union loop: the value itself when it
is already an instance, the recursively cast single element for a length-1
sequence, a direct cast for non-containers, and `none` (non-match, move on)
otherwise. -/
def memberAttempt (v : PyVal) (k : SKind) : Option PyVal :=
  if isinstanceS v k then some v
  else if isContainer v then
    match seqLen1Elem v with
    | some x => cast_as x k
    | none => none
  else cast_as v k

/-- A type annotation as the library sees it: a plain scalar kind or a union
whose members are tried in declared order.  The claims under study exercise
unions of the scalar kinds int/float/str/bool, which are exactly the kinds
the source's container guard names. -/
inductive Annot where
  | scalar (k : SKind)
  | union (members : List SKind)
deriving Repr

/-- Embedding of `cast_as_annotation` (cast.py lines 155-173): unions go to
`cast_as_union`, everything else goes to `cast_as` (`_is_union_type` is the
tag test on this Annot type). -/
def cast_as_annot (v : PyVal) : Annot → Option PyVal
  | .scalar k => cast_as v k
  | .union ms => cast_as_union v ms

/-- An input record: a Python dict modelled as an association list in
insertion order (Python dicts preserve insertion order). -/
abbrev Dict := List (String × PyVal)

/-- An annotation map, `cls.__dict__["__annotations__"]`, in declaration
order; keys of a Python class annotation dict are unique. -/
abbrev AnnMap := List (String × Annot)

/-- The kind of a per-field error entry in a ValidationError: the
missing-required-field entries built at cast.py lines 222-232 versus the
coercion-failure entries built at cast.py lines 255-261. -/
inductive ErrKind where
  | missingRequired
  | castFailed
deriving DecidableEq, Repr

/-- One entry of a ValidationError's `errors` dict: its kind and the
`input_value` recorded with it (`none` models the Python None recorded for
missing fields). -/
structure FieldError where
  kind : ErrKind
  inputValue : Option PyVal
deriving Repr

/-- The `errors` dictionary of a ValidationError, field name to entry. -/
abbrev ErrSet := List (String × FieldError)

/-- First value bound to a key in an association list (Python dict lookup). -/
def lookupA (anns : AnnMap) (k : String) : Option Annot :=
  match anns.find? (fun kv => kv.1 = k) with
  | some kv => some kv.2
  | none => none

/-- Embedding of `set(annotations.keys()) - set(d.keys())` (cast.py line
220), listed in annotation declaration order (the Python set has no
specified order; the claims speak of the set of names). -/
def missingKeys (anns : AnnMap) (d : Dict) : List String :=
  (anns.map Prod.fst).filter (fun k => !((d.map Prod.fst).contains k))

/-- Embedding of the per-field loop of `cast_to_annotated_class` (cast.py
lines 237-261) over the items of the input dict: keys without an annotation
are skipped (kept unchanged in new_data), annotated keys are cast with
`cast_as_annotation`; a cast failure keeps the original value in new_data
and records a castFailed entry carrying the offending value.  Returns the
final new_data together with the collected errors, both in input order.
The nested-pydantic-model branch of the source (cast.py lines 246-252) has
no counterpart because this Annot type has no nested-model variant. -/
def processFields (anns : AnnMap) : Dict → Dict × ErrSet
  | [] => ([], [])
  | (k, v) :: rest =>
    let out := processFields anns rest
    match lookupA anns k with
    | none => ((k, v) :: out.1, out.2)
    | some ann =>
      match cast_as_annot v ann with
      | some cv => ((k, cv) :: out.1, out.2)
      | none => ((k, v) :: out.1, (k, ⟨.castFailed, some v⟩) :: out.2)

/-- Embedding of `cast_to_annotated_class` (cast.py lines 201-309): the
missing-field gate first (raise with one missingRequired entry per missing
declared field, before any per-field work), then the per-field coercion
loop collecting every failure, then instance construction.  The constructed
instance is modelled by its attribute dictionary `new_data` (the source
builds the instance from new_data by keyword construction or attribute
assignment). -/
def cast_to_annotated_class (d : Dict) (anns : AnnMap) : Except ErrSet Dict :=
  let missing := missingKeys anns d
  if missing.isEmpty then
    let out := processFields anns d
    if out.2.isEmpty then .ok out.1 else .error out.2
  else
    .error (missing.map (fun k => (k, ⟨.missingRequired, none⟩)))

/-- Field names of the input dict whose annotated cast fails, in input
order: the keys that the per-field loop records errors for. -/
def failingKeys (anns : AnnMap) (d : Dict) : List String :=
  (d.filter (fun kv =>
    match lookupA anns kv.1 with
    | some ann => (cast_as_annot kv.2 ann).isNone
    | none => false)).map Prod.fst

/-- A transform (transform.py lines 6-30): field-level transforms carry a
field name and rewrite that field's value when the field is present;
record-level transforms (field = None in the source) receive the whole dict
and may return any value, which the pipeline then checks is a dict. -/
inductive Transform where
  | fieldLevel (field : String) (f : PyVal → PyVal)
  | recordLevel (f : Dict → PyVal)

/-- Updates the value at a key of an association list, leaving the list
unchanged when the key is absent (`if transform.field in result`). -/
def setField (d : Dict) (fld : String) (f : PyVal → PyVal) : Dict :=
  d.map (fun kv => if kv.1 = fld then (kv.1, f kv.2) else kv)

/-- Embedding of `apply_transforms` (transform.py lines 33-80) for a list of
transforms (the dict form iterates identically): transforms apply in order;
a field-level transform rewrites its field only when present; a
record-level transform replaces the working dict and raises ValueError
(`Except.error`, the TransformShapeError of the spec) when its result is
not a dict. -/
def apply_transforms : Dict → List Transform → Except Unit Dict
  | r, [] => .ok r
  | r, .fieldLevel fld f :: rest => apply_transforms (setField r fld f) rest
  | r, .recordLevel f :: rest =>
    match f r with
    | .vDict r1 => apply_transforms r1 rest
    | _ => .error ()

/-- The target a record is validated against: a plain annotated class
(handled in src by `cast_to_annotated_class`), or a pydantic model whose
`model_validate` is external to this repository and is therefore abstracted
as a function from the input dict to an instance or a validation error. -/
inductive Model where
  | annotated (anns : AnnMap)
  | oracle (f : Dict → Except ErrSet Dict)

/-- Dispatch of validate.py lines 109-123: a pydantic model class goes to
`model_validate` (the oracle function), anything else to
`cast_to_annotated_class`. -/
def runModel : Model → Dict → Except ErrSet Dict
  | .annotated anns, d => cast_to_annotated_class d anns
  | .oracle f, d => f d

/-- The result record returned by `validate_record`
(result.py RecordValidationResult): error, result and the original input
value.  A validated instance is modelled by its attribute dictionary. -/
structure RVResult where
  error : Option ErrSet
  result : Option Dict
  value : Dict
deriving Repr

/-- An exception escaping `validate_record`: the ValueError raised by a
record-level transform returning a non-dict (raised before the try block,
validate.py line 101, so never caught), or the validation failure re-raised
when `raise_errors` is true (validate.py lines 144-166). -/
inductive PipeExn where
  | transformShape
  | validationError (e : ErrSet)
deriving Repr

/-- Embedding of `validate_record` (validate.py lines 57-212) for a dict
record, with the optional fields/project_fields/rules arguments at their
None defaults (those steps are then skipped by the source).  Transforms are
applied before the try block, so a transform-shape ValueError propagates
regardless of `raise_errors`; a validation failure is re-raised under
`raise_errors` and otherwise returned in the result's error slot, with the
original (pre-transform) record attached as the result's value either way. -/
def validate_record (record : Dict) (m : Model) (ts : List Transform)
    (raiseErrors : Bool) : Except PipeExn RVResult :=
  match apply_transforms record ts with
  | .error _ => .error .transformShape
  | .ok rd =>
    match runModel m rd with
    | .ok inst => .ok ⟨none, some inst, record⟩
    | .error e =>
      if raiseErrors then .error (.validationError e)
      else .ok ⟨some e, none, record⟩

/-- The result produced when `validate_record` does not raise; under
RETURN/SKIP (raise_errors false) and without transforms this is the result
for every record. -/
def resultOf (m : Model) (r : Dict) : RVResult :=
  match runModel m r with
  | .ok inst => ⟨none, some inst, r⟩
  | .error e => ⟨some e, none, r⟩

/-- The three error-handling policies (options.py ErrorOption). -/
inductive ErrorOption where
  | RETURN
  | RAISE
  | SKIP
deriving DecidableEq, Repr

/-- Observable outcome of running the individual-validation loop of
`validate_records` to completion (or until a raised exception): the results
yielded to the caller in order, the escaped exception if any, how many
times the before_validate hook fired, the index values passed to the
progress callback, and the final value of the index counter. -/
structure RunOutput where
  yielded : List RVResult
  exn : Option PipeExn
  beforeCalls : Nat
  progressIdx : List Nat
  finalIndex : Nat
deriving Repr

/-- Embedding of the individual-validation loop of `validate_records`
(validate.py lines 423-464), with hooks and a progress callback attached
(hook bodies are modelled only by their observable counts/indices; a hook
or callback body that raises is swallowed by the source and cannot affect
these).  Per record: the before_validate hook fires, `validate_record` runs
with raise_errors exactly when the policy is RAISE (an escaping exception
ends the loop at once: later records are never reached and the progress
callback does not run for the raising record), then the progress callback
fires with the current index, then the index advances and the result is
yielded unless the policy is SKIP and the result carries an error. -/
def runLoop (m : Model) (ts : List Transform) (opt : ErrorOption) :
    List Dict → Nat → RunOutput
  | [], idx => ⟨[], none, 0, [], idx⟩
  | r :: rest, idx =>
    match validate_record r m ts (decide (opt = .RAISE)) with
    | .error e => ⟨[], some e, 1, [], idx⟩
    | .ok res =>
      let out := runLoop m ts opt rest (idx + 1)
      if res.error.isSome && decide (opt = .SKIP) then
        ⟨out.yielded, out.exn, out.beforeCalls + 1, idx :: out.progressIdx, out.finalIndex⟩
      else
        ⟨res :: out.yielded, out.exn, out.beforeCalls + 1, idx :: out.progressIdx, out.finalIndex⟩

/-- The individual path of `validate_records` run over an input whose items
are `records`, starting from index 0. -/
def validateRecords (records : List Dict) (m : Model) (ts : List Transform)
    (opt : ErrorOption) : RunOutput :=
  runLoop m ts opt records 0

/-- An event observable at the boundary of the `validate_records`
generator: pulling one item from the caller's input iterator, or yielding
one result to the caller. -/
inductive PipeEvent where
  | consume
  | yieldRes
deriving DecidableEq, Repr

/-- Input-consumption/output trace of the individual path of
`validate_records` on an iterator input: the source first materializes the
whole input with `records_list = list(records)` (validate.py line 416,
to obtain a total for progress reporting), pulling every item from the
iterator, and only then runs the per-item loop over the materialized list,
which consumes no further input while yielding its results. -/
def validateRecordsEvents (records : List Dict) (m : Model)
    (ts : List Transform) (opt : ErrorOption) : List PipeEvent :=
  records.map (fun _ => .consume)
    ++ (validateRecords records m ts opt).yielded.map (fun _ => .yieldRes)

/-- The result record returned by `validate_json`
(result.py JsonValidationResult); the validated pydantic instance is
modelled by its attribute dictionary and the original JSON text is kept in
`value`. -/
structure JVResult where
  error : Option ErrSet
  result : Option Dict
  value : String
deriving Repr

/-- Embedding of `validate_json` (validate.py lines 467-496):
`model_validate_json` is external (pydantic) and abstracted as the function
`jv`; its failure is re-raised under `raise_errors` and otherwise returned
in the error slot, with the original JSON attached either way. -/
def validate_json (j : String) (jv : String → Except ErrSet Dict)
    (raiseErrors : Bool) : Except ErrSet JVResult :=
  match jv j with
  | .error e => if raiseErrors then .error e else .ok ⟨some e, none, j⟩
  | .ok inst => .ok ⟨none, some inst, j⟩

/-- Transforms applied to every record of the materialized list, as the bulk
path does at validate.py lines 298-306; `none` when one of them raises. -/
def applyTransformsAll (rs : List Dict) (ts : List Transform) : Option (List Dict) :=
  rs.mapM (fun r => (apply_transforms r ts).toOption)

/-- Embedding of the bulk section of `validate_records` (validate.py lines
283-408), reachable when bulk is requested, the model is a pydantic class
and the policy is RETURN, for all-dict inputs and rules/project_fields at
their None defaults: the input is materialized, transforms are applied to
the materialized list in place, and the whole transformed list goes to the
TypeAdapter bulk validator (external to this repository, abstracted as
`bulkOracle`).  On bulk success each yielded result carries the validated
instance and, as its value, the element of the transformed materialized
list at the same position (validate.py line 372).  `none` models every way
the section falls through to individual validation (empty handled as zero
yields, oracle failure, or any exception inside the section, including a
transform error, swallowed by the `except Exception` at line 409). -/
def bulkPath (recordsList : List Dict) (ts : List Transform)
    (bulkOracle : List Dict → Option (List Dict)) : Option (List RVResult) :=
  if recordsList.isEmpty then some []
  else
    match applyTransformsAll recordsList ts with
    | none => none
    | some tlist =>
      match bulkOracle tlist with
      | none => none
      | some insts => some ((tlist.zip insts).map (fun p => ⟨none, some p.2, p.1⟩))

/-- Containers are not instances of any of the scalar kinds: `isinstance`
on a list/dict/tuple/set is false for int, float, str and bool. -/
theorem isinstanceS_of_container {v : PyVal} (h : isContainer v = true) (k : SKind) :
    isinstanceS v k = false := by
  cases v <;> cases k <;> first
    | rfl
    | exact absurd h (by simp [isContainer])

/-- C1: union resolution is deterministic in declared member order:
`cast_as_union` returns the outcome of the first member whose attempt
(instance match, length-1 unwrap, or direct coercion) succeeds, without
consulting later members, and moves to the next member exactly when the
attempt fails; for value `["5"]`, `Union(int, str)` resolves to the int 5
and `Union(str, int)` to the str "5". -/
theorem union_resolution_declared_order :
    (∀ (v : PyVal) (k : SKind) (rest : List SKind) (r : PyVal),
        memberAttempt v k = some r → cast_as_union v (k :: rest) = some r) ∧
    (∀ (v : PyVal) (k : SKind) (rest : List SKind),
        memberAttempt v k = none → cast_as_union v (k :: rest) = cast_as_union v rest) ∧
    cast_as_union (.vList [.vStr "5"]) [SKind.int, SKind.str] = some (.vInt 5) ∧
    cast_as_union (.vList [.vStr "5"]) [SKind.str, SKind.int] = some (.vStr "5") := by
  refine ⟨?_, ?_, by rfl, by rfl⟩
  · intro v k rest r h
    simp only [memberAttempt] at h
    simp only [cast_as_union]
    by_cases h1 : isinstanceS v k = true
    · rwa [if_pos h1] at h ⊢
    · rw [if_neg h1] at h ⊢
      by_cases h2 : isContainer v = true
      · rw [if_pos h2] at h ⊢
        cases hs : seqLen1Elem v with
        | none => rw [hs] at h; dsimp only at h; cases h
        | some x => rw [hs] at h; dsimp only at h; simp only [h]
      · rw [if_neg h2] at h ⊢
        rw [h]
  · intro v k rest h
    simp only [memberAttempt] at h
    simp only [cast_as_union]
    by_cases h1 : isinstanceS v k = true
    · rw [if_pos h1] at h; cases h
    · rw [if_neg h1] at h ⊢
      by_cases h2 : isContainer v = true
      · rw [if_pos h2] at h ⊢
        cases hs : seqLen1Elem v with
        | none => rfl
        | some x => rw [hs] at h; dsimp only at h; simp only [h]
      · rw [if_neg h2] at h ⊢
        rw [h]

/-- Witness for C1: the first member attempt of Union(int, str) on the
value ["5"] succeeds, so resolution returns its outcome at once. -/
theorem union_resolution_declared_order_witness :
    cast_as_union (.vList [.vStr "5"]) [SKind.int, SKind.str] = some (.vInt 5) :=
  union_resolution_declared_order.1 (.vList [.vStr "5"]) SKind.int [SKind.str]
    (.vInt 5) (by rfl)

/-- C2: when a union member is a scalar kind and the value is a container,
the member attempt never casts the whole container directly: a length-1
list or tuple has its single element recursively cast to the member kind
(failure of that inner cast moves on to the next member), and every other
container shape moves on to the next member; concretely, `[1, 2]` is a
non-match for a str member (although a direct `str()` cast of the whole
list would succeed), as are a length-1 set, a mapping and an empty list,
while `["7"]` unwraps and coerces to the int 7. -/
theorem union_scalar_container_guard :
    (∀ (v x : PyVal) (k : SKind) (rest : List SKind),
        isContainer v = true → seqLen1Elem v = some x →
        cast_as_union v (k :: rest)
          = (match cast_as x k with
             | some r => some r
             | none => cast_as_union v rest)) ∧
    (∀ (v : PyVal) (k : SKind) (rest : List SKind),
        isContainer v = true → seqLen1Elem v = none →
        cast_as_union v (k :: rest) = cast_as_union v rest) ∧
    cast_as_union (.vList [.vInt 1, .vInt 2]) [SKind.str] = none ∧
    cast_as (.vList [.vInt 1, .vInt 2]) SKind.str = some (.vStr "[1, 2]") ∧
    cast_as_union (.vSet [.vInt 1]) [SKind.str] = none ∧
    cast_as_union (.vDict [("a", .vInt 1)]) [SKind.bool] = none ∧
    cast_as_union (.vList []) [SKind.str] = none ∧
    cast_as_union (.vList [.vStr "7"]) [SKind.int] = some (.vInt 7) := by
  refine ⟨?_, ?_, by rfl, by rfl, by rfl, by rfl, by rfl, by rfl⟩
  · intro v x k rest hc hx
    simp only [cast_as_union, isinstanceS_of_container hc, Bool.false_eq_true,
      if_false, hc, if_true, hx]
  · intro v k rest hc hx
    simp only [cast_as_union, isinstanceS_of_container hc, Bool.false_eq_true,
      if_false, hc, if_true, hx]

/-- Witness for C2: the two-element list `[1, 2]` is a non-match for the
scalar member, so resolution moves on to the (empty) remainder of the
union. -/
theorem union_scalar_container_guard_witness :
    cast_as_union (.vList [.vInt 1, .vInt 2]) [SKind.str]
      = cast_as_union (.vList [.vInt 1, .vInt 2]) [] :=
  union_scalar_container_guard.2.1 (.vList [.vInt 1, .vInt 2]) SKind.str []
    (by rfl) (by rfl)

/-- C10: the container guard exists only inside union resolution; for a
plain scalar annotation, `cast_as` and `cast_as_annotation` blindly
construct from container values: every container casts to str as its
repr-style rendering `str(v)` and to bool as its truthiness, with no error
and no length-1 unwrap (the one-element list [5] becomes the string "[5]",
not "5"). -/
theorem plain_scalar_no_container_guard :
    (∀ v : PyVal, isContainer v = true →
        cast_as v SKind.str = some (.vStr (pyStr v)) ∧
        cast_as v SKind.bool = some (.vBool (truthy v)) ∧
        cast_as_annot v (.scalar .str) = some (.vStr (pyStr v)) ∧
        cast_as_annot v (.scalar .bool) = some (.vBool (truthy v))) ∧
    cast_as (.vList [.vInt 1, .vInt 2]) SKind.str = some (.vStr "[1, 2]") ∧
    cast_as (.vList [.vInt 5]) SKind.str = some (.vStr "[5]") ∧
    cast_as (.vList []) SKind.bool = some (.vBool false) ∧
    cast_as (.vList [.vInt 0]) SKind.bool = some (.vBool true) ∧
    cast_as (.vDict [("a", .vInt 1)]) SKind.str
      = some (.vStr "\x7b\x27a\x27: 1\x7d") := by
  refine ⟨?_, by rfl, by rfl, by rfl, by rfl, by rfl⟩
  intro v h
  refine ⟨?_, ?_, ?_, ?_⟩ <;>
    simp only [cast_as_annot, cast_as, isinstanceS_of_container h,
      Bool.false_eq_true, if_false, constructS]

/-- Witness for C10: the two-element list `[1, 2]` under a plain str
annotation casts to its repr rendering with no error. -/
theorem plain_scalar_no_container_guard_witness :
    cast_as (.vList [.vInt 1, .vInt 2]) SKind.str
      = some (.vStr (pyStr (.vList [.vInt 1, .vInt 2]))) :=
  (plain_scalar_no_container_guard.1 (.vList [.vInt 1, .vInt 2]) (by rfl)).1

/-- The errors collected by the per-field loop are exactly the failing
fields of the input, in input order, and every collected entry is a
coercion failure carrying the offending input value. -/
theorem processFields_errors (anns : AnnMap) (d : Dict) :
    (processFields anns d).2.map Prod.fst = failingKeys anns d ∧
    ∀ e ∈ (processFields anns d).2,
      e.2.kind = ErrKind.castFailed ∧
      ∃ v, e.2.inputValue = some v ∧ (e.1, v) ∈ d := by
  induction d with
  | nil => exact ⟨rfl, by intro e he; cases he⟩
  | cons kv rest ih =>
    obtain ⟨k, v⟩ := kv
    simp only [processFields, failingKeys, List.filter_cons] at ih ⊢
    cases hl : lookupA anns k with
    | none =>
      refine ⟨?_, ?_⟩
      · simpa [hl, failingKeys] using ih.1
      · intro e he
        dsimp only at he
        obtain ⟨hk, w, hw, hm⟩ := ih.2 e he
        exact ⟨hk, w, hw, List.mem_cons_of_mem _ hm⟩
    | some ann =>
      cases hc : cast_as_annot v ann with
      | some cv =>
        refine ⟨?_, ?_⟩
        · simpa [hl, hc, failingKeys] using ih.1
        · intro e he
          dsimp only at he
          rw [hc] at he
          dsimp only at he
          obtain ⟨hk, w, hw, hm⟩ := ih.2 e he
          exact ⟨hk, w, hw, List.mem_cons_of_mem _ hm⟩
      | none =>
        refine ⟨?_, ?_⟩
        · simpa [hl, hc, failingKeys] using ih.1
        · intro e he
          dsimp only at he
          rw [hc] at he
          dsimp only at he
          rcases List.mem_cons.mp he with h | h
          · subst h
            exact ⟨rfl, v, rfl, List.mem_cons_self _ _⟩
          · obtain ⟨hk, w, hw, hm⟩ := ih.2 e h
            exact ⟨hk, w, hw, List.mem_cons_of_mem _ hm⟩

/-- C3: the missing-field check is a hard gate: whenever at least one
declared field is absent from the input mapping, `cast_to_annotated_class`
raises an error whose entries are exactly one missingRequired entry per
missing field — no castFailed (type-coercion) entry can appear, and no
per-field coercion output is produced. -/
theorem missing_field_hard_gate (d : Dict) (anns : AnnMap)
    (h : (missingKeys anns d).isEmpty = false) :
    cast_to_annotated_class d anns
      = .error ((missingKeys anns d).map
          (fun k => (k, ⟨ErrKind.missingRequired, none⟩))) ∧
    ((missingKeys anns d).map
        (fun k => ((k, ⟨ErrKind.missingRequired, none⟩) : String × FieldError))).map
        Prod.fst = missingKeys anns d ∧
    (∀ e ∈ (missingKeys anns d).map
        (fun k => ((k, ⟨ErrKind.missingRequired, none⟩) : String × FieldError)),
      e.2.kind = ErrKind.missingRequired ∧ e.2.kind ≠ ErrKind.castFailed) ∧
    ((anns.map Prod.fst).Nodup →
      (((missingKeys anns d).map
          (fun k => ((k, ⟨ErrKind.missingRequired, none⟩) : String × FieldError))).map
          Prod.fst).Nodup) := by
  refine ⟨?_, ?_, ?_, ?_⟩
  · simp only [cast_to_annotated_class, h, Bool.false_eq_true, if_false]
  · rw [List.map_map]
    exact List.map_id _
  · intro e he
    simp only [List.mem_map] at he
    obtain ⟨k, _, hk⟩ := he
    subst hk
    exact ⟨rfl, by simp⟩
  · intro hn
    simp only [List.map_map]
    have : (Prod.fst ∘ fun k => ((k, (⟨ErrKind.missingRequired, none⟩ : FieldError))))
        = fun k : String => k := rfl
    rw [this]
    simpa [missingKeys] using (List.Nodup.filter _ hn)

/-- Witness for C3: the input having only "name" against declared fields
id, name, age fails with exactly the missingRequired entries for id and
age. -/
theorem missing_field_hard_gate_witness :
    cast_to_annotated_class [("name", .vStr "Alice")]
        [("id", .scalar .int), ("name", .scalar .str), ("age", .scalar .float)]
      = .error [("id", ⟨ErrKind.missingRequired, none⟩),
                ("age", ⟨ErrKind.missingRequired, none⟩)] :=
  (missing_field_hard_gate [("name", .vStr "Alice")]
    [("id", .scalar .int), ("name", .scalar .str), ("age", .scalar .float)]
    (by rfl)).1

/-- C4: with no missing fields, the per-field loop attempts every declared
field and the raised error carries exactly the set of fields whose coercion
failed (each entry a castFailed entry recording the offending input value);
for \x7b"id": "x", "name": "Alice", "age": "y"\x7d against id:int,
name:str, age:float the error keys are exactly id and age. -/
theorem multi_error_aggregation (d : Dict) (anns : AnnMap)
    (hm : (missingKeys anns d).isEmpty = true)
    (hf : failingKeys anns d ≠ []) :
    cast_to_annotated_class d anns = .error (processFields anns d).2 ∧
    (processFields anns d).2.map Prod.fst = failingKeys anns d ∧
    (∀ e ∈ (processFields anns d).2,
      e.2.kind = ErrKind.castFailed ∧
      ∃ v, e.2.inputValue = some v ∧ (e.1, v) ∈ d) ∧
    cast_to_annotated_class
        [("id", .vStr "x"), ("name", .vStr "Alice"), ("age", .vStr "y")]
        [("id", .scalar .int), ("name", .scalar .str), ("age", .scalar .float)]
      = .error [("id", ⟨ErrKind.castFailed, some (.vStr "x")⟩),
                ("age", ⟨ErrKind.castFailed, some (.vStr "y")⟩)] := by
  have hp := processFields_errors anns d
  have hne : (processFields anns d).2.isEmpty = false := by
    cases hpe : (processFields anns d).2 with
    | nil =>
      exfalso
      exact hf (by rw [← hp.1, hpe]; rfl)
    | cons a l => rfl
  refine ⟨?_, hp.1, hp.2, by rfl⟩
  simp only [cast_to_annotated_class, hm, if_true, hne, Bool.false_eq_true, if_false]

/-- Witness for C4: the concrete two-bad-fields record fails with exactly
the keys id and age. -/
theorem multi_error_aggregation_witness :
    cast_to_annotated_class
        [("id", .vStr "x"), ("name", .vStr "Alice"), ("age", .vStr "y")]
        [("id", .scalar .int), ("name", .scalar .str), ("age", .scalar .float)]
      = .error (processFields
          [("id", .scalar .int), ("name", .scalar .str), ("age", .scalar .float)]
          [("id", .vStr "x"), ("name", .vStr "Alice"), ("age", .vStr "y")]).2 :=
  (multi_error_aggregation
    [("id", .vStr "x"), ("name", .vStr "Alice"), ("age", .vStr "y")]
    [("id", .scalar .int), ("name", .scalar .str), ("age", .scalar .float)]
    (by rfl) (by decide)).1

/-- C5: a record-level transform returning a non-mapping propagates to the
caller as a raised error regardless of the error-handling policy: it
escapes `validate_record` whether or not raise_errors is set (it is never
converted into a result's error slot), and under any of RETURN, RAISE or
SKIP the pipeline run on a record whose transforms raise ends at once with
that exception, yielding nothing for that record or any later one. -/
theorem transform_shape_error_propagates (record : Dict) (m : Model)
    (ts : List Transform) (h : apply_transforms record ts = .error ()) :
    (∀ raiseErrors : Bool,
        validate_record record m ts raiseErrors = .error .transformShape) ∧
    (∀ (opt : ErrorOption) (rest : List Dict),
        validateRecords (record :: rest) m ts opt
          = ⟨[], some .transformShape, 1, [], 0⟩) := by
  constructor
  · intro re
    simp only [validate_record, h]
  · intro opt rest
    simp only [validateRecords, runLoop, validate_record, h]

/-- Witness for C5: a record-level transform returning None raises out of
`validate_record` even under the error-returning configuration. -/
theorem transform_shape_error_propagates_witness :
    validate_record [("a", .vInt 1)] (.annotated [])
        [.recordLevel (fun _ => .vNone)] false
      = .error .transformShape :=
  (transform_shape_error_propagates [("a", .vInt 1)] (.annotated [])
    [.recordLevel (fun _ => .vNone)] (by rfl)).1 false

/-- Counterexample to C6: on a two-record input, both input items are
pulled from the iterator before the first result is produced (the trace
starts with two consume events and the first yield comes only after them),
so producing the result for item 0 consumes input beyond item 0. -/
theorem validate_records_not_lazy :
    validateRecordsEvents [[("id", .vInt 1)], [("id", .vInt 2)]]
        (.annotated [("id", .scalar .int)]) [] .RETURN
      = [.consume, .consume, .yieldRes, .yieldRes] ∧
    ((validateRecordsEvents [[("id", .vInt 1)], [("id", .vInt 2)]]
        (.annotated [("id", .scalar .int)]) [] .RETURN).takeWhile
        (fun e => decide (e ≠ PipeEvent.yieldRes))).length = 2 := by
  exact ⟨by rfl, by rfl⟩

/-- C6 amended: the synchronous `validate_records` is not lazy in its
input: it first materializes the entire input sequence
(`records_list = list(records)`), consuming every input item before the
first result is yielded, and only then yields its results one at a time
without consuming further input. -/
theorem validate_records_materializes_input (records : List Dict) (m : Model)
    (ts : List Transform) (opt : ErrorOption) :
    validateRecordsEvents records m ts opt
      = List.replicate records.length .consume
        ++ List.replicate (validateRecords records m ts opt).yielded.length
            .yieldRes := by
  simp only [validateRecordsEvents, List.map_const']

/-- The individual loop under RETURN: every record yields exactly one
result, in input order, with no exception; the hook fires once per record,
the progress callback sees consecutive indices, and the index counter
advances once per record. -/
theorem runLoop_return (m : Model) (records : List Dict) (idx : Nat) :
    runLoop m [] .RETURN records idx
      = ⟨records.map (resultOf m), none, records.length,
         List.range' idx records.length, idx + records.length⟩ := by
  induction records generalizing idx with
  | nil => simp [runLoop]
  | cons r rest ih =>
    simp only [runLoop, ih, validate_record, apply_transforms]
    cases h : runModel m r with
    | ok inst =>
      simp [resultOf, h]
      exact ⟨(List.range'_succ _ _ _).symm, by omega⟩
    | error e =>
      simp [resultOf, h]
      exact ⟨(List.range'_succ _ _ _).symm, by omega⟩

/-- The individual loop under SKIP: the yielded results are exactly the
successful ones of the RETURN run, in the same relative order, while the
hook, progress and index counters advance over every record including the
skipped ones. -/
theorem runLoop_skip (m : Model) (records : List Dict) (idx : Nat) :
    runLoop m [] .SKIP records idx
      = ⟨(records.map (resultOf m)).filter (fun r => r.error.isNone), none,
         records.length, List.range' idx records.length,
         idx + records.length⟩ := by
  induction records generalizing idx with
  | nil => simp [runLoop]
  | cons r rest ih =>
    simp only [runLoop, ih, validate_record, apply_transforms]
    cases h : runModel m r with
    | ok inst =>
      simp [resultOf, h, List.filter_cons]
      exact ⟨(List.range'_succ _ _ _).symm, by omega⟩
    | error e =>
      simp [resultOf, h, List.filter_cons]
      exact ⟨(List.range'_succ _ _ _).symm, by omega⟩

/-- C7: RETURN versus SKIP policy equivalence: under RETURN every input
item yields exactly one result in input order (failures carried in the
error slot, the original item in the value slot), while under SKIP exactly
the successful results of the same run are yielded in the same relative
order and the index still advances over every item; on
[valid, invalid, valid], RETURN yields three results with the middle one
carrying the error, SKIP yields exactly the first and third, both
successful, and its index counter still ends at 3. -/
theorem return_skip_policy_equivalence :
    (∀ (records : List Dict) (m : Model),
        validateRecords records m [] .RETURN
          = ⟨records.map (resultOf m), none, records.length,
             List.range' 0 records.length, records.length⟩) ∧
    (∀ (records : List Dict) (m : Model),
        validateRecords records m [] .SKIP
          = ⟨(records.map (resultOf m)).filter (fun r => r.error.isNone),
             none, records.length, List.range' 0 records.length,
             records.length⟩) ∧
    (validateRecords [[("id", .vInt 1)], [("id", .vStr "x")], [("id", .vInt 3)]]
        (.annotated [("id", .scalar .int)]) [] .RETURN).yielded.map
        (fun r => (r.error.isSome, r.value))
      = [(false, [("id", .vInt 1)]), (true, [("id", .vStr "x")]),
         (false, [("id", .vInt 3)])] ∧
    (validateRecords [[("id", .vInt 1)], [("id", .vStr "x")], [("id", .vInt 3)]]
        (.annotated [("id", .scalar .int)]) [] .SKIP).yielded.map
        (fun r => (r.error.isSome, r.value))
      = [(false, [("id", .vInt 1)]), (false, [("id", .vInt 3)])] ∧
    (validateRecords [[("id", .vInt 1)], [("id", .vStr "x")], [("id", .vInt 3)]]
        (.annotated [("id", .scalar .int)]) [] .SKIP).finalIndex = 3 ∧
    (validateRecords [[("id", .vInt 1)], [("id", .vStr "x")], [("id", .vInt 3)]]
        (.annotated [("id", .scalar .int)]) [] .SKIP).progressIdx = [0, 1, 2] := by
  refine ⟨?_, ?_, by rfl, by rfl, by rfl, by rfl⟩
  · intro records m
    have h := runLoop_return m records 0
    simpa [validateRecords] using h
  · intro records m
    have h := runLoop_skip m records 0
    simpa [validateRecords] using h

/-- Helper: under RAISE the loop yields the results of the leading
successful records, raises at the first failing record (with progress never
firing for it) and never reaches the records after it. -/
theorem runLoop_raise_split (m : Model) (good : List Dict) (bad : Dict)
    (rest : List Dict) (idx : Nat)
    (hg : ∀ r ∈ good, (runModel m r).isOk = true)
    (hb : (runModel m bad).isOk = false) :
    ∃ e : ErrSet,
      runLoop m [] .RAISE (good ++ bad :: rest) idx
        = ⟨good.map (resultOf m), some (.validationError e),
           good.length + 1, List.range' idx good.length,
           idx + good.length⟩ := by
  induction good generalizing idx with
  | nil =>
    cases h : runModel m bad with
    | ok inst => simp [h, Except.isOk, Except.toBool] at hb
    | error e =>
      refine ⟨e, ?_⟩
      simp [runLoop, validate_record, apply_transforms, h]
  | cons g good1 ih =>
    have hok := hg g (List.mem_cons_self _ _)
    cases h : runModel m g with
    | error e => simp [h, Except.isOk, Except.toBool] at hok
    | ok inst =>
      obtain ⟨e, he⟩ := ih (idx + 1) (fun r hr => hg r (List.mem_cons_of_mem _ hr))
      refine ⟨e, ?_⟩
      simp only [List.cons_append, runLoop, validate_record, apply_transforms, h]
      simp [he, resultOf, h]
      exact ⟨(List.range'_succ _ _ _).symm, by omega⟩

/-- C8: under RAISE the first validation failure aborts iteration: the run
yields exactly one result per leading valid record, the underlying failure
propagates as an exception, the before-validate hook fires once per leading
valid record plus once for the failing record and never for any later one,
and the progress callback never fires for the failing record. -/
theorem raise_policy_aborts (m : Model) (good : List Dict) (bad : Dict)
    (rest : List Dict)
    (hg : ∀ r ∈ good, (runModel m r).isOk = true)
    (hb : (runModel m bad).isOk = false) :
    (validateRecords (good ++ bad :: rest) m [] .RAISE).yielded
        = good.map (resultOf m) ∧
    (validateRecords (good ++ bad :: rest) m [] .RAISE).exn.isSome = true ∧
    (validateRecords (good ++ bad :: rest) m [] .RAISE).beforeCalls
        = good.length + 1 ∧
    (validateRecords (good ++ bad :: rest) m [] .RAISE).progressIdx
        = List.range' 0 good.length := by
  obtain ⟨e, he⟩ := runLoop_raise_split m good bad rest 0 hg hb
  simp [validateRecords, he]

/-- Witness for C8: on [valid, invalid, valid] under RAISE exactly one
result is yielded, the failure escapes, and the before-validate hook fires
exactly twice (never for the third record). -/
theorem raise_policy_aborts_witness :
    (validateRecords
        ([[("id", .vInt 1)]] ++ [("id", .vStr "x")] :: [[("id", .vInt 3)]])
        (.annotated [("id", .scalar .int)]) [] .RAISE).yielded.length = 1 ∧
    (validateRecords
        ([[("id", .vInt 1)]] ++ [("id", .vStr "x")] :: [[("id", .vInt 3)]])
        (.annotated [("id", .scalar .int)]) [] .RAISE).beforeCalls = 2 ∧
    (validateRecords
        ([[("id", .vInt 1)]] ++ [("id", .vStr "x")] :: [[("id", .vInt 3)]])
        (.annotated [("id", .scalar .int)]) [] .RAISE).exn.isSome = true := by
  have h := raise_policy_aborts (.annotated [("id", .scalar .int)])
    [[("id", .vInt 1)]] [("id", .vStr "x")] [[("id", .vInt 3)]]
    (by intro r hr; rcases List.mem_singleton.mp hr with rfl; rfl) (by rfl)
  exact ⟨by rw [h.1]; rfl, h.2.2.1, h.2.1⟩

/-- Helper: a non-raising call of `validate_record` produces a result with
exactly one of error/result set and the original record in the value slot. -/
theorem validate_record_ok_shape (record : Dict) (m : Model)
    (ts : List Transform) (re : Bool) (res : RVResult)
    (h : validate_record record m ts re = .ok res) :
    (res.error.isSome ↔ res.result.isNone) ∧ res.value = record := by
  simp only [validate_record] at h
  cases hT : apply_transforms record ts with
  | error u => rw [hT] at h; cases h
  | ok rd =>
    rw [hT] at h
    dsimp only at h
    cases hM : runModel m rd with
    | ok inst =>
      rw [hM] at h
      injection h with h1
      subst h1
      simp
    | error e =>
      rw [hM] at h
      cases re with
      | true => simp at h
      | false =>
        simp only [Bool.false_eq_true, if_false] at h
        injection h with h1
        subst h1
        simp

/-- Helper: every result yielded by the individual loop, at any starting
index and under any policy, satisfies the one-of-error-or-result invariant
and carries one of the input records as its value. -/
theorem runLoop_yielded_invariant (m : Model) (ts : List Transform)
    (opt : ErrorOption) (records : List Dict) (idx : Nat) :
    ∀ res ∈ (runLoop m ts opt records idx).yielded,
      (res.error.isSome ↔ res.result.isNone) ∧ res.value ∈ records := by
  induction records generalizing idx with
  | nil =>
    intro res hres
    simp [runLoop] at hres
  | cons r rest ih =>
    intro res hres
    simp only [runLoop] at hres
    cases hV : validate_record r m ts (decide (opt = .RAISE)) with
    | error e =>
      rw [hV] at hres
      simp at hres
    | ok rr =>
      rw [hV] at hres
      dsimp only at hres
      cases hc : (rr.error.isSome && decide (opt = ErrorOption.SKIP)) with
      | true =>
        rw [hc] at hres
        simp only [if_true] at hres
        obtain ⟨hi, hm⟩ := ih (idx + 1) res hres
        exact ⟨hi, List.mem_cons_of_mem _ hm⟩
      | false =>
        rw [hc] at hres
        simp only [Bool.false_eq_true, if_false] at hres
        rcases List.mem_cons.mp hres with h1 | h1
        · subst h1
          obtain ⟨hi, hv⟩ := validate_record_ok_shape r m ts _ res hV
          exact ⟨hi, by rw [hv]; exact List.mem_cons_self _ _⟩
        · obtain ⟨hi, hm⟩ := ih (idx + 1) res h1
          exact ⟨hi, List.mem_cons_of_mem _ hm⟩

/-- Helper: the first components of a zip are a prefix of the first list. -/
theorem zip_map_fst_take (a b : List Dict) :
    ((a.zip b).map (fun p => p.1)) = a.take (a.zip b).length := by
  induction a generalizing b with
  | nil => simp
  | cons x a1 ih =>
    cases b with
    | nil => simp
    | cons y b1 => simp [List.zip_cons_cons, ih]

/-- C9 amended: every result of `validate_record`, `validate_json` and the
individual path of `validate_records` satisfies the invariant — exactly one
of error/result is set and the value slot holds the caller's original input
record; on the bulk path the exactly-one invariant still holds, but the
value slot holds the corresponding element of the transformed (and
field-filtered) materialized list rather than the caller's original
record. -/
theorem result_invariant_amended :
    (∀ (record : Dict) (m : Model) (ts : List Transform) (re : Bool)
        (res : RVResult),
        validate_record record m ts re = .ok res →
        (res.error.isSome ↔ res.result.isNone) ∧ res.value = record) ∧
    (∀ (j : String) (jv : String → Except ErrSet Dict) (re : Bool)
        (res : JVResult),
        validate_json j jv re = .ok res →
        (res.error.isSome ↔ res.result.isNone) ∧ res.value = j) ∧
    (∀ (records : List Dict) (m : Model) (ts : List Transform)
        (opt : ErrorOption),
        ∀ res ∈ (validateRecords records m ts opt).yielded,
          (res.error.isSome ↔ res.result.isNone) ∧ res.value ∈ records) ∧
    (∀ (recordsList tlist : List Dict) (ts : List Transform)
        (ob : List Dict → Option (List Dict)) (results : List RVResult),
        applyTransformsAll recordsList ts = some tlist →
        bulkPath recordsList ts ob = some results →
        (∀ res ∈ results, res.error.isSome ↔ res.result.isNone) ∧
        results.map (fun r => r.value) = tlist.take results.length) := by
  refine ⟨validate_record_ok_shape, ?_, ?_, ?_⟩
  · intro j jv re res h
    simp only [validate_json] at h
    cases hJ : jv j with
    | ok inst =>
      rw [hJ] at h
      injection h with h1
      subst h1
      simp
    | error e =>
      rw [hJ] at h
      cases re with
      | true => simp at h
      | false =>
        simp only [Bool.false_eq_true, if_false] at h
        injection h with h1
        subst h1
        simp
  · intro records m ts opt
    exact runLoop_yielded_invariant m ts opt records 0
  · intro recordsList tlist ts ob results hT hB
    simp only [bulkPath] at hB
    by_cases he : recordsList.isEmpty = true
    · rw [if_pos he] at hB
      injection hB with h1
      subst h1
      exact ⟨(by intro res hres; cases hres), by simp⟩
    · rw [if_neg he] at hB
      rw [hT] at hB
      dsimp only at hB
      cases hOb : ob tlist with
      | none => rw [hOb] at hB; cases hB
      | some insts =>
        rw [hOb] at hB
        dsimp only at hB
        injection hB with h1
        subst h1
        constructor
        · intro res hres
          simp only [List.mem_map] at hres
          obtain ⟨p, hp, hpe⟩ := hres
          subst hpe
          simp
        · rw [List.map_map, List.length_map]
          exact zip_map_fst_take tlist insts

/-- Witness for C9 amended: a two-transform-free concrete run through
`validate_record` satisfies the invariant with the original record kept. -/
theorem result_invariant_amended_witness :
    ((⟨none, some [("id", PyVal.vInt 1)], [("id", PyVal.vInt 1)]⟩ :
        RVResult).error.isSome
      ↔ (⟨none, some [("id", PyVal.vInt 1)], [("id", PyVal.vInt 1)]⟩ :
        RVResult).result.isNone) ∧
    (⟨none, some [("id", PyVal.vInt 1)], [("id", PyVal.vInt 1)]⟩ :
        RVResult).value = [("id", PyVal.vInt 1)] :=
  result_invariant_amended.1 [("id", PyVal.vInt 1)]
    (.annotated [("id", .scalar .int)]) [] false
    ⟨none, some [("id", PyVal.vInt 1)], [("id", PyVal.vInt 1)]⟩ (by rfl)

/-- Counterexample to C9 as stated: on the bulk path with a field transform
and an always-accepting bulk oracle, the yielded result's value slot holds
the transformed record, not the literal original input record supplied by
the caller. -/
theorem result_value_not_original_on_bulk :
    bulkPath [[("id", PyVal.vInt 1)]]
        [Transform.fieldLevel "id" (fun _ => .vInt 2)] some
      = some [⟨none, some [("id", PyVal.vInt 2)], [("id", PyVal.vInt 2)]⟩] ∧
    ¬ (([("id", PyVal.vInt 2)] : Dict) = [("id", PyVal.vInt 1)]) := by
  refine ⟨by rfl, ?_⟩
  intro h
  simp only [List.cons.injEq, Prod.mk.injEq, PyVal.vInt.injEq] at h
  omega

end Dydactic
